import Mathlib

set_option maxHeartbeats 1000000

/-! Verification development for the webhook ingestion pipeline:
HMAC-SHA256 signature generation and validation (src/generate_signature.py,
src/webhook-receiver/handler.py), the webhook receiver handler, the batch
processor (src/webhook-processor/main.py) and the logs query limit handling
(src/logs-api/handler.py). Machine integers are modelled as Nat reduced
modulo 2^32 where overflow matters; byte strings are lists of Nat below 256. -/

namespace Webhook

/-! ## SHA-256 and HMAC, as computed by hashlib.sha256 / hmac.new -/

def w32 (n : Nat) : Nat := n % 4294967296

def rotr32 (k x : Nat) : Nat := w32 ((x >>> k) ||| (x <<< (32 - k)))

def bsig0 (x : Nat) : Nat := (rotr32 2 x) ^^^ (rotr32 13 x) ^^^ (rotr32 22 x)

def bsig1 (x : Nat) : Nat := (rotr32 6 x) ^^^ (rotr32 11 x) ^^^ (rotr32 25 x)

def ssig0 (x : Nat) : Nat := (rotr32 7 x) ^^^ (rotr32 18 x) ^^^ (x >>> 3)

def ssig1 (x : Nat) : Nat := (rotr32 17 x) ^^^ (rotr32 19 x) ^^^ (x >>> 10)

/-- Working state of the SHA-256 compression function: eight 32-bit words. -/
structure Sha256State where
  a : Nat
  b : Nat
  c : Nat
  d : Nat
  e : Nat
  f : Nat
  g : Nat
  h : Nat
deriving Repr

/-- The eight initial hash words of FIPS 180-4, written in decimal. -/
def sha256Init : Sha256State :=
  ⟨1779033703, 3144134277, 1013904242, 2773480762,
   1359893119, 2600822924, 528734635, 1541459225⟩

/-- The 64 round constant words of FIPS 180-4, written in decimal. -/
def sha256K : List Nat :=
  [1116352408, 1899447441, 3049323471, 3921009573, 961987163, 1508970993,
   2453635748, 2870763221, 3624381080, 310598401, 607225278, 1426881987,
   1925078388, 2162078206, 2614888103, 3248222580, 3835390401, 4022224774,
   264347078, 604807628, 770255983, 1249150122, 1555081692, 1996064986,
   2554220882, 2821834349, 2952996808, 3210313671, 3336571891, 3584528711,
   113926993, 338241895, 666307205, 773529912, 1294757372, 1396182291,
   1695183700, 1986661051, 2177026350, 2456956037, 2730485921, 2820302411,
   3259730800, 3345764771, 3516065817, 3600352804, 4094571909, 275423344,
   430227734, 506948616, 659060556, 883997877, 958139571, 1322822218,
   1537002063, 1747873779, 1955562222, 2024104815, 2227730452, 2361852424,
   2428436474, 2756734187, 3204031479, 3329325298]

def toBytes4 (n : Nat) : List Nat :=
  [(n >>> 24) % 256, (n >>> 16) % 256, (n >>> 8) % 256, n % 256]

def toBytes8 (n : Nat) : List Nat :=
  toBytes4 (n >>> 32) ++ toBytes4 n

def wordAt (bs : List Nat) (i : Nat) : Nat :=
  ((bs.getD (4 * i) 0) <<< 24) ||| ((bs.getD (4 * i + 1) 0) <<< 16) |||
  ((bs.getD (4 * i + 2) 0) <<< 8) ||| bs.getD (4 * i + 3) 0

/-- Message-schedule extension, keeping the newest word at the head. -/
def extendSched : Nat → List Nat → List Nat
  | 0, rws => rws
  | n + 1, rws =>
      extendSched n
        (w32 (ssig1 (rws.getD 1 0) + rws.getD 6 0 +
              ssig0 (rws.getD 14 0) + rws.getD 15 0) :: rws)

def schedule (block : List Nat) : List Nat :=
  (extendSched 48 ((List.range 16).map (fun i => wordAt block i)).reverse).reverse

def sha256Round (st : Sha256State) (wk : Nat × Nat) : Sha256State :=
  let ch := (st.e &&& st.f) ^^^ ((st.e ^^^ 4294967295) &&& st.g)
  let maj := (st.a &&& st.b) ^^^ (st.a &&& st.c) ^^^ (st.b &&& st.c)
  let t1 := w32 (st.h + bsig1 st.e + ch + wk.1 + wk.2)
  let t2 := w32 (bsig0 st.a + maj)
  ⟨w32 (t1 + t2), st.a, st.b, st.c, w32 (st.d + t1), st.e, st.f, st.g⟩

def sha256Compress (st : Sha256State) (block : List Nat) : Sha256State :=
  let r := ((schedule block).zip sha256K).foldl sha256Round st
  ⟨w32 (st.a + r.a), w32 (st.b + r.b), w32 (st.c + r.c), w32 (st.d + r.d),
   w32 (st.e + r.e), w32 (st.f + r.f), w32 (st.g + r.g), w32 (st.h + r.h)⟩

def sha256Blocks (st : Sha256State) (bs : List Nat) : Sha256State :=
  match bs with
  | [] => st
  | b :: rest =>
      sha256Blocks (sha256Compress st ((b :: rest).take 64)) ((b :: rest).drop 64)
termination_by bs.length
decreasing_by simp [List.length_drop]; omega

/-- Standard SHA-256 padding: 0x80, zeros, then the bit length in 8 bytes. -/
def sha256Pad (m : List Nat) : List Nat :=
  m ++ 0x80 :: (List.replicate ((64 - ((m.length + 9) % 64)) % 64) 0 ++
                toBytes8 (8 * m.length))

def sha256 (m : List Nat) : List Nat :=
  let st := sha256Blocks sha256Init (sha256Pad m)
  toBytes4 st.a ++ toBytes4 st.b ++ toBytes4 st.c ++ toBytes4 st.d ++
  toBytes4 st.e ++ toBytes4 st.f ++ toBytes4 st.g ++ toBytes4 st.h

/-- HMAC-SHA256 over byte lists, as computed by hmac.new(key, msg, sha256). -/
def hmacSha256 (key msg : List Nat) : List Nat :=
  let k0 := if 64 < key.length then sha256 key else key
  let kp := k0 ++ List.replicate (64 - k0.length) 0
  let inner := sha256 (kp.map (fun b => b ^^^ 0x36) ++ msg)
  sha256 (kp.map (fun b => b ^^^ 0x5c) ++ inner)

/-! ## UTF-8 encoding and lowercase hex digests -/

def utf8Char (n : Nat) : List Nat :=
  if n < 128 then [n]
  else if n < 2048 then [0xC0 ||| (n >>> 6), 0x80 ||| (n &&& 0x3F)]
  else if n < 65536 then
    [0xE0 ||| (n >>> 12), 0x80 ||| ((n >>> 6) &&& 0x3F), 0x80 ||| (n &&& 0x3F)]
  else
    [0xF0 ||| (n >>> 18), 0x80 ||| ((n >>> 12) &&& 0x3F),
     0x80 ||| ((n >>> 6) &&& 0x3F), 0x80 ||| (n &&& 0x3F)]

def utf8Encode (s : String) : List Nat :=
  (s.data.map (fun c => utf8Char c.toNat)).flatten

def hexAlphabet : List Char := "0123456789abcdef".data

def hexDigitChar (n : Nat) : Char := hexAlphabet.getD n '0'

/-- Lowercase hexadecimal rendering of a byte list, as bytes.hex does. -/
def hexDigest (bs : List Nat) : String :=
  ⟨(bs.map (fun b => [hexDigitChar (b / 16), hexDigitChar (b % 16)])).flatten⟩

/-! ## Timing-safe comparison

Transcription of the CPython primitive behind hmac.compare_digest for
string arguments: both operands must be ASCII, and the core loop walks a
fixed number of bytes accumulating a bitwise difference, with no early
exit. The loop below also counts its iterations, which serves as the cost
model for the constant-time property. -/

def tscmpLoop : Nat → List Nat → List Nat → Nat × Nat
  | r, x :: xs, y :: ys =>
      let p := tscmpLoop (r ||| (x ^^^ y)) xs ys
      (p.1, p.2 + 1)
  | r, _, _ => (r, 0)

def tscmpRun (a b : List Nat) : Bool × Nat :=
  let init := if a.length = b.length then 0 else 1
  let left := if a.length = b.length then a else b
  let p := tscmpLoop init left b
  (p.1 == 0, p.2)

def tscmp (a b : List Nat) : Bool := (tscmpRun a b).1

def tscmpSteps (a b : List Nat) : Nat := (tscmpRun a b).2

def strCodes (s : String) : List Nat := s.data.map Char.toNat

def allAscii (s : String) : Bool := s.data.all (fun c => c.toNat < 128)

/-- Model of hmac.compare_digest on two str arguments. A non-ASCII operand
makes the CPython call raise TypeError, which validate_signature catches
and turns into False; the model folds that into the Boolean result. -/
def compare_digest (a b : String) : Bool :=
  if allAscii a && allAscii b then tscmp (strCodes a) (strCodes b) else false

def strStartsWith (s p : String) : Bool := p.data.isPrefixOf s.data

def strDrop (s : String) (n : Nat) : String := ⟨s.data.drop n⟩

/-! ## Signature generation and validation -/

/-- The shared digest computation of both sides: HMAC-SHA256 over the
UTF-8 bytes of the body keyed by the UTF-8 bytes of the secret, rendered
as lowercase hex. -/
def hmacHex (secret_key body : String) : String :=
  hexDigest (hmacSha256 (utf8Encode secret_key) (utf8Encode body))

/-- Transcription of generate_signature from src/generate_signature.py. -/
def generate_signature (payload secret_key : String) : String :=
  "sha256=" ++ hmacHex secret_key payload

/-- Transcription of WebhookValidator.validate_signature from
src/webhook-receiver/handler.py lines 181-200. -/
def validate_signature (body signature_header secret_key : String) : Bool :=
  if signature_header.data.isEmpty || !(strStartsWith signature_header "sha256=") then
    false
  else
    let expected_signature := strDrop signature_header 7
    let calculated_signature := hmacHex secret_key body
    compare_digest calculated_signature expected_signature

/-- A string made of lowercase hex digits only. -/
def isLowerHex (s : String) : Bool := s.data.all (fun c => decide (c ∈ hexAlphabet))

/-! ## JSON values and a parser modelling json.loads

Values are the six JSON kinds; a number is kept exactly as mantissa and
decimal exponent (value m * 10 ^ e), which avoids floating point while
preserving which texts parse. Not modelled (never produced by this
pipeline, noted for fidelity): the NaN and Infinity extensions that
json.loads accepts, and lone UTF-16 surrogates in escapes. -/

inductive Json where
  | null
  | bool (b : Bool)
  | num (m : Int) (e : Int)
  | str (s : String)
  | arr (elems : List Json)
  | obj (fields : List (String × Json))
deriving Repr

def isJsonWs (c : Char) : Bool := c = ' ' || c = '\t' || c = '\n' || c = '\r'

def skipWs : List Char → List Char
  | [] => []
  | c :: cs => if isJsonWs c then skipWs cs else c :: cs

def hexVal (c : Char) : Option Nat :=
  if '0' ≤ c ∧ c ≤ '9' then some (c.toNat - 48)
  else if 'a' ≤ c ∧ c ≤ 'f' then some (c.toNat - 87)
  else if 'A' ≤ c ∧ c ≤ 'F' then some (c.toNat - 55)
  else none

def hex4 : List Char → Option (Nat × List Char)
  | a :: b :: c :: d :: rest =>
    match hexVal a, hexVal b, hexVal c, hexVal d with
    | some x, some y, some z, some w => some (((x * 16 + y) * 16 + z) * 16 + w, rest)
    | _, _, _, _ => none
  | _ => none

def escChar (e : Char) : Option Char :=
  if e = '"' then some '"'
  else if e = '\\' then some '\\'
  else if e = '/' then some '/'
  else if e = 'b' then some (Char.ofNat 8)
  else if e = 'f' then some (Char.ofNat 12)
  else if e = 'n' then some '\n'
  else if e = 'r' then some '\r'
  else if e = 't' then some '\t'
  else none

/-- Body of a JSON string after the opening quote: returns the decoded
characters and the input remaining after the closing quote. Control
characters below 0x20 must be escaped, as in strict json.loads. -/
def parseStrChars : Nat → List Char → Option (List Char × List Char)
  | 0, _ => none
  | _ + 1, [] => none
  | fuel + 1, c :: cs =>
    if c = '"' then some ([], cs)
    else if c = '\\' then
      match cs with
      | [] => none
      | e :: cs2 =>
        if e = 'u' then
          match hex4 cs2 with
          | none => none
          | some (n, rest) =>
            if 0xD800 ≤ n ∧ n ≤ 0xDBFF then
              match rest with
              | '\\' :: 'u' :: rest2 =>
                match hex4 rest2 with
                | some (n2, rest3) =>
                  if 0xDC00 ≤ n2 ∧ n2 ≤ 0xDFFF then
                    let cp := 0x10000 + (n - 0xD800) * 1024 + (n2 - 0xDC00)
                    (parseStrChars fuel rest3).map (fun p => (Char.ofNat cp :: p.1, p.2))
                  else none
                | none => none
              | _ => none
            else if 0xDC00 ≤ n ∧ n ≤ 0xDFFF then none
            else (parseStrChars fuel rest).map (fun p => (Char.ofNat n :: p.1, p.2))
        else
          match escChar e with
          | some ec => (parseStrChars fuel cs2).map (fun p => (ec :: p.1, p.2))
          | none => none
    else if c.toNat < 32 then none
    else (parseStrChars fuel cs).map (fun p => (c :: p.1, p.2))

def digitVal (c : Char) : Option Nat :=
  if '0' ≤ c ∧ c ≤ '9' then some (c.toNat - 48) else none

def takeDigits : List Char → (List Nat × List Char)
  | [] => ([], [])
  | c :: cs =>
    match digitVal c with
    | some d => let p := takeDigits cs; (d :: p.1, p.2)
    | none => ([], c :: cs)

def digitsToNat (ds : List Nat) : Nat := ds.foldl (fun a d => a * 10 + d) 0

/-- JSON number grammar: optional minus, integer part without leading
zeros, optional fraction, optional exponent. -/
def parseNumber (cs : List Char) : Option (Json × List Char) :=
  let signed : Bool × List Char :=
    match cs with
    | '-' :: rest => (true, rest)
    | _ => (false, cs)
  let intRes : Option (Nat × List Char) :=
    match signed.2 with
    | '0' :: rest => some (0, rest)
    | c :: rest =>
      match digitVal c with
      | some d =>
        let p := takeDigits rest
        some (digitsToNat (d :: p.1), p.2)
      | none => none
    | [] => none
  match intRes with
  | none => none
  | some (ip, cs2) =>
    let fracRes : Option (List Nat × List Char) :=
      match cs2 with
      | '.' :: rest =>
        let p := takeDigits rest
        if p.1.isEmpty then none else some (p.1, p.2)
      | _ => some ([], cs2)
    match fracRes with
    | none => none
    | some (fds, cs3) =>
      let expRes : Option (Int × List Char) :=
        match cs3 with
        | e :: rest =>
          if e = 'e' ∨ e = 'E' then
            let se : Bool × List Char :=
              match rest with
              | '+' :: r2 => (false, r2)
              | '-' :: r2 => (true, r2)
              | _ => (false, rest)
            let p := takeDigits se.2
            if p.1.isEmpty then none
            else some ((if se.1 then -(digitsToNat p.1 : Int)
                        else (digitsToNat p.1 : Int)), p.2)
          else some (0, e :: rest)
        | [] => some (0, [])
      match expRes with
      | none => none
      | some (ex, cs4) =>
        let mAbs : Nat := ip * 10 ^ fds.length + digitsToNat fds
        let m : Int := if signed.1 then -(mAbs : Int) else (mAbs : Int)
        some (Json.num m (ex - fds.length), cs4)

mutual

def parseVal : Nat → List Char → Option (Json × List Char)
  | 0, _ => none
  | fuel + 1, cs =>
    match skipWs cs with
    | 'n' :: 'u' :: 'l' :: 'l' :: rest => some (Json.null, rest)
    | 't' :: 'r' :: 'u' :: 'e' :: rest => some (Json.bool true, rest)
    | 'f' :: 'a' :: 'l' :: 's' :: 'e' :: rest => some (Json.bool false, rest)
    | '"' :: rest =>
        (parseStrChars (rest.length + 1) rest).map (fun p => (Json.str ⟨p.1⟩, p.2))
    | '[' :: rest =>
        (match skipWs rest with
         | ']' :: rest2 => some (Json.arr [], rest2)
         | _ => (parseElems fuel rest).map (fun p => (Json.arr p.1, p.2)))
    | '\x7b' :: rest =>
        (match skipWs rest with
         | '\x7d' :: rest2 => some (Json.obj [], rest2)
         | _ => (parseMembers fuel rest).map (fun p => (Json.obj p.1, p.2)))
    | c :: rest =>
        if c = '-' ∨ (digitVal c).isSome then parseNumber (c :: rest) else none
    | [] => none

def parseElems : Nat → List Char → Option (List Json × List Char)
  | 0, _ => none
  | fuel + 1, cs =>
    match parseVal fuel cs with
    | none => none
    | some (j, rest) =>
      match skipWs rest with
      | ',' :: rest2 => (parseElems fuel rest2).map (fun p => (j :: p.1, p.2))
      | ']' :: rest2 => some ([j], rest2)
      | _ => none

def parseMembers : Nat → List Char → Option (List (String × Json) × List Char)
  | 0, _ => none
  | fuel + 1, cs =>
    match skipWs cs with
    | '"' :: rest =>
      (match parseStrChars (rest.length + 1) rest with
       | none => none
       | some (kcs, rest2) =>
         match skipWs rest2 with
         | ':' :: rest3 =>
           (match parseVal fuel rest3 with
            | none => none
            | some (v, rest4) =>
              match skipWs rest4 with
              | ',' :: rest5 =>
                  (parseMembers fuel rest5).map (fun p => ((⟨kcs⟩, v) :: p.1, p.2))
              | '\x7d' :: rest5 => some ([(⟨kcs⟩, v)], rest5)
              | _ => none)
         | _ => none)
    | _ => none

end

/-- Model of json.loads: parse one value, then require that only
whitespace remains. -/
def parseJson (s : String) : Option Json :=
  match parseVal (2 * s.data.length + 8) s.data with
  | some (j, rest) => if (skipWs rest).isEmpty then some j else none
  | none => none

/-- Lookup in a Python dict built from JSON object members: a duplicated
key keeps the value of its last occurrence. -/
def objFind (fs : List (String × Json)) (k : String) : Option Json :=
  match fs.reverse.find? (fun p => p.1 == k) with
  | some p => some p.2
  | none => none

def objGetD (fs : List (String × Json)) (k : String) (d : Json) : Json :=
  (objFind fs k).getD d

/-- Keys of the Python dict built from JSON object members, in first
occurrence order, each key once. -/
def dedupKeys (fs : List (String × Json)) : List String :=
  fs.foldl (fun acc p => if acc.contains p.1 then acc else acc ++ [p.1]) []

/-- Python truthiness of a parsed JSON value. -/
def jsonTruthy : Json → Bool
  | Json.null => false
  | Json.bool b => b
  | Json.num m _ => !(m == 0)
  | Json.str s => !s.data.isEmpty
  | Json.arr xs => !xs.isEmpty
  | Json.obj fs => !fs.isEmpty

/-- Iteration of a Python for loop over a parsed JSON value: lists yield
elements, dicts yield keys, strings yield one-character strings; other
values raise TypeError (none). -/
def jsonIter : Json → Option (List Json)
  | Json.arr xs => some xs
  | Json.obj fs => some ((dedupKeys fs).map Json.str)
  | Json.str s => some (s.data.map (fun c => Json.str ⟨[c]⟩))
  | _ => none

/-- Python len() on a parsed JSON value: lists, dicts (number of distinct
keys) and strings are sized; None, booleans and numbers raise TypeError
(none). -/
def jsonLen : Json → Option Nat
  | Json.arr xs => some xs.length
  | Json.obj fs => some (dedupKeys fs).length
  | Json.str s => some s.data.length
  | _ => none

/-! ## Timestamps

Model of datetime.fromisoformat followed by timestamp, restricted to
offset-aware date-times written with colon-separated fields (the only
form this pipeline produces: the receiver emits an isoformat UTC stamp
whose +00:00 suffix is rewritten to Z, and the processor rewrites Z back
before parsing). Strings without an explicit offset parse in Python to
naive datetimes whose epoch value depends on the host timezone; they are
outside the model and map to none. The result is microseconds since the
epoch as an exact integer; the sub-microsecond float rounding of the
CPython timestamp call is not modelled (no claim depends on the value). -/

def readDigitsAux : Nat → Nat → List Char → Option (Nat × List Char)
  | 0, acc, cs => some (acc, cs)
  | k + 1, acc, cs =>
    match cs with
    | c :: rest =>
      match digitVal c with
      | some d => readDigitsAux k (acc * 10 + d) rest
      | none => none
    | [] => none

def expectChar (c : Char) : List Char → Option (List Char)
  | x :: rest => if x = c then some rest else none
  | [] => none

def isLeapYear (y : Nat) : Bool :=
  (y % 4 == 0 && y % 100 != 0) || (y % 400 == 0)

def daysInMonth (y m : Nat) : Nat :=
  if m = 2 then (if isLeapYear y then 29 else 28)
  else if m = 4 ∨ m = 6 ∨ m = 9 ∨ m = 11 then 30
  else 31

/-- Days from 1970-01-01 to the given civil date, by the standard
era-of-400-years computation. -/
def daysFromCivil (y m d : Nat) : Int :=
  let yy : Int := if m ≤ 2 then (y : Int) - 1 else (y : Int)
  let era : Int := yy.fdiv 400
  let yoe : Int := yy - era * 400
  let mp : Int := ((m : Int) + 9) % 12
  let doy : Int := (153 * mp + 2).fdiv 5 + (d : Int) - 1
  let doe : Int := yoe * 365 + yoe.fdiv 4 - yoe.fdiv 100 + doy
  era * 146097 + doe - 719468

def parseSecFrac : List Char → Option (Nat × Nat × List Char)
  | ':' :: rest =>
    (readDigitsAux 2 0 rest).bind (fun p =>
      match p.2 with
      | '.' :: r2 =>
        let q := takeDigits r2
        if q.1.isEmpty ∨ 6 < q.1.length then none
        else some (p.1, digitsToNat q.1 * 10 ^ (6 - q.1.length), q.2)
      | ',' :: r2 =>
        let q := takeDigits r2
        if q.1.isEmpty ∨ 6 < q.1.length then none
        else some (p.1, digitsToNat q.1 * 10 ^ (6 - q.1.length), q.2)
      | _ => some (p.1, 0, p.2))
  | cs => some (0, 0, cs)

def parseOffMag (cs : List Char) : Option (Int × List Char) := do
  let (oh, r1) ← readDigitsAux 2 0 cs
  let r2 ← expectChar ':' r1
  let (om, r3) ← readDigitsAux 2 0 r2
  let (os, r4) ←
    match r3 with
    | ':' :: rr => readDigitsAux 2 0 rr
    | _ => some (0, r3)
  guard (oh ≤ 23 ∧ om ≤ 59 ∧ os ≤ 59)
  pure (((oh * 3600 + om * 60 + os : Nat) : Int), r4)

def parseOffset : List Char → Option (Int × List Char)
  | '+' :: rest => (parseOffMag rest).map (fun p => (p.1, p.2))
  | '-' :: rest => (parseOffMag rest).map (fun p => (-p.1, p.2))
  | _ => none

def pyTimestampMicros (s : String) : Option Int := do
  let (y, r1) ← readDigitsAux 4 0 s.data
  let r2 ← expectChar '-' r1
  let (mo, r3) ← readDigitsAux 2 0 r2
  let r4 ← expectChar '-' r3
  let (d, r5) ← readDigitsAux 2 0 r4
  guard (1 ≤ y ∧ 1 ≤ mo ∧ mo ≤ 12 ∧ 1 ≤ d ∧ d ≤ daysInMonth y mo)
  match r5 with
  | [] => none
  | _ :: r6 => do
    let (hh, r7) ← readDigitsAux 2 0 r6
    let r8 ← expectChar ':' r7
    let (mi, r9) ← readDigitsAux 2 0 r8
    let (ss, frac, r10) ← parseSecFrac r9
    guard (hh ≤ 23 ∧ mi ≤ 59 ∧ ss ≤ 59)
    let (off, r11) ← parseOffset r10
    guard r11.isEmpty
    let secs : Int := daysFromCivil y mo d * 86400 +
      ((hh * 3600 + mi * 60 + ss : Nat) : Int) - off
    pure (secs * 1000000 + (frac : Int))

/-- Replacement of every Z by +00:00, as received_at.replace does in
_insert_tx. -/
def replaceZ (s : String) : String :=
  ⟨(s.data.map (fun c => if c = 'Z' then "+00:00".data else [c])).flatten⟩

/-! ## Batch processor (src/webhook-processor/main.py) -/

/-- Transcription of the pydantic model WebhookPayload (main.py lines
98-105). -/
structure WebhookPayload where
  log_id : String
  received_at : String
  event_type : Option String
  payload : List (String × Json)
  signature : Option String
deriving Repr

/-- Transcription of the ProcessingResult model (main.py lines 108-113). -/
structure ProcessingResult where
  status : String
  processed : Nat
  errors : Nat
deriving Repr

/-- Construction of WebhookPayload from a parsed JSON dict as in
process_single_message lines 205-211: data.get for each field, then
pydantic validation. A missing or non-string log_id or received_at, a
non-dict payload value, or a non-string non-null event_type or signature
raises ValidationError, modelled as none. -/
def mkWebhookPayload (fs : List (String × Json)) : Option WebhookPayload :=
  match objFind fs "log_id", objFind fs "received_at" with
  | some (Json.str lid), some (Json.str rat) =>
    let et : Option (Option String) :=
      match objFind fs "event_type" with
      | none => some none
      | some Json.null => some none
      | some (Json.str s) => some (some s)
      | some _ => none
    let pl : Option (List (String × Json)) :=
      match objFind fs "payload" with
      | none => some []
      | some (Json.obj pfs) => some pfs
      | some _ => none
    let sg : Option (Option String) :=
      match objFind fs "signature" with
      | none => some none
      | some Json.null => some none
      | some (Json.str s) => some (some s)
      | some _ => none
    match et, pl, sg with
    | some et, some pl, some sg => some ⟨lid, rat, et, pl, sg⟩
    | _, _, _ => none
  | _, _ => none

/-- One stored row of the webhook_logs table, with the six UPSERT columns
of _insert_tx. The payload is kept as the parsed JSON dict; YDB stores
its JSON serialization, injective on these values. -/
structure LogRow where
  log_id : String
  received_at : Int
  event_type : String
  payload_json : List (String × Json)
  signature : String
  processed_at : Int
deriving Repr

/-- UPSERT into webhook_logs keyed by log_id: replace the row when the
key exists, append otherwise. Modelled from the spec: the Store
collaborator (YDB) is external; spec section 6 fixes a table of envelopes
keyed by log_id, and the UPSERT statement of _insert_tx writes by that
key with insert-or-replace semantics. -/
def upsertRow (st : List LogRow) (r : LogRow) : List LogRow :=
  if st.any (fun x => x.log_id == r.log_id) then
    st.map (fun x => if x.log_id == r.log_id then r else x)
  else st ++ [r]

/-- Python falsy-or coalescing on an optional string, as in the
parameter bindings of _insert_tx (main.py lines 178 and 180): both None
and the empty string are falsy, so `value or default` falls back to the
default for either. -/
def pyOrDefault (v : Option String) (d : String) : String :=
  match v with
  | some s => if s.data.isEmpty then d else s
  | none => d

def rowOf (w : WebhookPayload) (ts now : Int) : LogRow :=
  ⟨w.log_id, ts, pyOrDefault w.event_type "unknown", w.payload,
   pyOrDefault w.signature "", now⟩

/-- Transcription of WebhookRepository.insert_log and _insert_tx (main.py
lines 125-185). The Store collaborator outcome is abstracted by accept
(True when the UPSERT transaction commits; False models a raised
exception, caught by insert_log, leaving the table unchanged). now is the
processed_at timestamp in microseconds, taken at persistence time. -/
def insert_log (accept : WebhookPayload → Bool) (now : Int)
    (st : List LogRow) (w : WebhookPayload) : Bool × List LogRow :=
  match pyTimestampMicros (replaceZ w.received_at) with
  | none => (false, st)
  | some ts =>
    if accept w then (true, upsertRow st (rowOf w ts now))
    else (false, st)

/-- Transcription of process_single_message (main.py lines 193-228).
Malformed JSON, a non-dict document (AttributeError on data.get), and
pydantic ValidationError are all caught and become False. -/
def process_single_message (accept : WebhookPayload → Bool) (now : Int)
    (st : List LogRow) (message_body : String) : Bool × List LogRow :=
  match parseJson message_body with
  | none => (false, st)
  | some (Json.obj fs) =>
    match mkWebhookPayload fs with
    | none => (false, st)
    | some w => insert_log accept now st w
  | some _ => (false, st)

/-- One iteration of the batch loop (main.py lines 258-273): extraction of
details.message.body with defaults, then process_single_message. Every
exception inside the loop body is caught and counts as an error, so all
failure shapes collapse to False with the table unchanged. -/
def processItem (accept : WebhookPayload → Bool) (now : Int)
    (st : List LogRow) (m : Json) : Bool × List LogRow :=
  match m with
  | Json.obj msgFs =>
    match objGetD msgFs "details" (Json.obj []) with
    | Json.obj dFs =>
      match objGetD dFs "message" (Json.obj []) with
      | Json.obj mFs =>
        match objGetD mFs "body" (Json.str "\x7b\x7d") with
        | Json.str s => process_single_message accept now st s
        | _ => (false, st)
      | _ => (false, st)
    | _ => (false, st)
  | _ => (false, st)

/-- The batch loop with its two counters. -/
def processMessages (accept : WebhookPayload → Bool) (now : Int) :
    List Json → Nat → Nat → List LogRow → Nat × Nat × List LogRow
  | [], s, e, st => (s, e, st)
  | m :: rest, s, e, st =>
    let r := processItem accept now st m
    if r.1 then processMessages accept now rest (s + 1) e r.2
    else processMessages accept now rest s (e + 1) r.2

/-- Transcription of process_ymq_trigger (main.py lines 245-286) on the
already-parsed request document: messages extraction with default, the
logging call that evaluates len(messages) before anything else (line
249, so an unsized messages value such as null, a boolean or a number
raises TypeError there), the empty-batch early return on a falsy value,
the counting loop, and the outer exception handler that turns any of
those batch-level failures into HTTP 500 (Except.error, refusing the
batch acknowledgment). -/
def processTriggerJson (accept : WebhookPayload → Bool) (now : Int)
    (st : List LogRow) (body : Json) :
    Except Unit (ProcessingResult × List LogRow) :=
  match body with
  | Json.obj bfs =>
    let messages := objGetD bfs "messages" (Json.arr [])
    match jsonLen messages with
    | none => Except.error ()
    | some _ =>
      if !jsonTruthy messages then Except.ok (⟨"success", 0, 0⟩, st)
      else
        match jsonIter messages with
        | none => Except.error ()
        | some items =>
          let r := processMessages accept now items 0 0 st
          Except.ok (⟨"success", r.1, r.2.1⟩, r.2.2)
  | _ => Except.error ()

/-- The full trigger endpoint: request.json then processTriggerJson. -/
def process_ymq_trigger (accept : WebhookPayload → Bool) (now : Int)
    (st : List LogRow) (bodyStr : String) :
    Except Unit (ProcessingResult × List LogRow) :=
  match parseJson bodyStr with
  | none => Except.error ()
  | some j => processTriggerJson accept now st j

/-- A message body the processor fully accepts: a JSON object whose
pydantic validation passes and whose received_at parses as an
offset-aware timestamp. -/
def wellFormedMsg (b : String) : Bool :=
  match parseJson b with
  | some (Json.obj fs) =>
    match mkWebhookPayload fs with
    | some w => (pyTimestampMicros (replaceZ w.received_at)).isSome
    | none => false
  | _ => false

/-- The row a fully accepted message body persists. -/
def rowOfMsg (b : String) (now : Int) : Option LogRow :=
  match parseJson b with
  | some (Json.obj fs) =>
    match mkWebhookPayload fs with
    | some w => (pyTimestampMicros (replaceZ w.received_at)).map
        (fun ts => rowOf w ts now)
    | none => none
  | _ => none

/-- A YMQ trigger message wrapping one raw body, in the envelope shape of
spec section 6. -/
def mkMsgJson (mid body : String) : Json :=
  Json.obj [("details", Json.obj [("message", Json.obj
    [("message_id", Json.str mid), ("body", Json.str body)])])]

def mkBatchEnvelope (bodies : List String) : Json :=
  Json.obj [("messages", Json.arr (bodies.map (fun b => mkMsgJson "mid" b)))]

/-- Characterization, following the spec words of section 4.3, of a batch
request whose batch-level envelope extraction fails: unparseable request
document, a non-dict document (AttributeError on body.get), or a
messages value without a len (TypeError in the logging call on line 249,
which precedes the falsy check). Sized values are lists, dicts and
strings; all of those also iterate, so the loop statement itself never
raises beyond this condition. -/
def envelopeBad (bodyStr : String) : Bool :=
  match parseJson bodyStr with
  | none => true
  | some (Json.obj bfs) =>
    (jsonLen (objGetD bfs "messages" (Json.arr []))).isNone
  | some _ => true

/-- Number of loop iterations the batch request produces. -/
def numMessages (bodyStr : String) : Nat :=
  match parseJson bodyStr with
  | some (Json.obj bfs) =>
    let messages := objGetD bfs "messages" (Json.arr [])
    if !jsonTruthy messages then 0
    else ((jsonIter messages).getD []).length
  | _ => 0

/-! ## Webhook receiver (src/webhook-receiver/handler.py) -/

/-- Observable outcome of one receiver invocation: HTTP status, error
text, returned log_id, number of Queue send attempts, whether body
parsing was attempted, and the enqueued message. -/
structure RecvResult where
  status : Nat
  error : Option String
  logId : Option String
  sends : Nat
  parsed : Bool
  enqueued : Option Json
deriving Repr

def lowerStr (s : String) : String := ⟨s.data.map Char.toLower⟩

/-- Header extraction of handler lines 231-233: keys lowered into a dict
(a later duplicate overwrites), then x-webhook-signature with default
empty. -/
def headerSigLookup (headers : List (String × String)) : String :=
  match ((headers.map (fun p => (lowerStr p.1, p.2))).reverse.find?
          (fun p => p.1 == "x-webhook-signature")) with
  | some p => p.2
  | none => ""

/-- Transcription of handler (webhook-receiver/handler.py lines 222-290)
for invocations where the secret was retrieved; nondeterministic inputs
are parameters: secret (the Lockbox value), freshId (uuid4), ts (the
current UTC stamp), enqueueOk (the Queue collaborator outcome). A body
parsing as JSON but not as an object makes payload.get raise
AttributeError, caught only by the outermost handler (500). -/
def handler (secret : String) (headers : List (String × String)) (body : String)
    (freshId ts : String) (enqueueOk : Bool) : RecvResult :=
  let signature_header := headerSigLookup headers
  if !(validate_signature body signature_header secret) then
    ⟨401, some "Invalid signature", none, 0, false, none⟩
  else
    match parseJson body with
    | none => ⟨400, some "Invalid JSON payload", none, 0, true, none⟩
    | some (Json.obj pfs) =>
      let event_type := objGetD pfs "event_type" (Json.str "unknown")
      let message := Json.obj
        [("log_id", Json.str freshId), ("received_at", Json.str ts),
         ("event_type", event_type), ("payload", Json.obj pfs),
         ("signature", Json.str signature_header)]
      if enqueueOk then ⟨200, none, some freshId, 1, true, some message⟩
      else ⟨500, some "Failed to enqueue message", none, 1, true, some message⟩
    | some _ => ⟨500, some "Internal server error", none, 0, true, none⟩

/-! ## Logs API (src/logs-api/handler.py) -/

/-- Digits of Python int with optional single underscores strictly
between digits, after the first digit. -/
def pyDigitsUAux : Nat → List Char → Option Nat
  | acc, [] => some acc
  | acc, c :: cs =>
    match digitVal c with
    | some d => pyDigitsUAux (acc * 10 + d) cs
    | none =>
      if c = '_' then
        match cs with
        | c2 :: cs2 =>
          match digitVal c2 with
          | some d2 => pyDigitsUAux (acc * 10 + d2) cs2
          | none => none
        | [] => none
      else none

def pyDigitsU (cs : List Char) : Option Nat :=
  match cs with
  | [] => none
  | c :: rest =>
    match digitVal c with
    | some d => pyDigitsUAux d rest
    | none => none

def isPyWs (c : Char) : Bool :=
  c = ' ' || c = '\t' || c = '\n' || c = '\r' || c = '\x0b' || c = '\x0c'

/-- Model of Python int(s) on ASCII inputs: optional surrounding
whitespace, optional sign, then decimal digits with single underscores
between digits; anything else raises ValueError (none). Non-ASCII digit
forms are not modelled. -/
def pyInt (s : String) : Option Int :=
  let cs := ((s.data.dropWhile isPyWs).reverse.dropWhile isPyWs).reverse
  let signed : Bool × List Char :=
    match cs with
    | '+' :: rest => (false, rest)
    | '-' :: rest => (true, rest)
    | _ => (false, cs)
  match pyDigitsU signed.2 with
  | some n => some (if signed.1 then -(n : Int) else (n : Int))
  | none => none

/-- Transcription of the limit handling of handler (logs-api/handler.py
lines 245-250): the limit query parameter with default 50, int
conversion, clamping into 1..100, ValueError fallback to 50. -/
def logsLimit (params : List (String × String)) : Int :=
  let s := ((params.find? (fun p => p.1 == "limit")).map (fun p => p.2)).getD "50"
  match pyInt s with
  | some n => max 1 (min n 100)
  | none => 50

def logsLimitOf (s : String) : Int := logsLimit [("limit", s)]

/-- Whether a body is syntactically valid JSON whose document is an
object. -/
def parsesAsObj (body : String) : Bool :=
  match parseJson body with
  | some (Json.obj _) => true
  | _ => false

def isObjJson : Json → Bool
  | Json.obj _ => true
  | _ => false

/-! ## Helper lemmas -/

theorem strData_append (s t : String) : (s ++ t).data = s.data ++ t.data := by
  cases s; cases t; rfl

theorem strMk_data (s : String) : String.mk s.data = s := by
  cases s; rfl

theorem or_eq_zero {a b : Nat} (h : a ||| b = 0) : a = 0 ∧ b = 0 := by
  constructor <;>
  · apply Nat.eq_of_testBit_eq
    intro i
    have h2 := congrArg (fun n => Nat.testBit n i) h
    simp only [Nat.testBit_or, Nat.zero_testBit, Bool.or_eq_false_iff] at h2
    simp [h2.1, h2.2]

theorem tscmpLoop_self (xs : List Nat) (r : Nat) : (tscmpLoop r xs xs).1 = r := by
  induction xs generalizing r with
  | nil => rfl
  | cons x t ih => simp [tscmpLoop, ih]

theorem tscmpLoop_ne (xs ys : List Nat) (r : Nat) (h : r ≠ 0) :
    (tscmpLoop r xs ys).1 ≠ 0 := by
  induction xs generalizing ys r with
  | nil => cases ys <;> simpa [tscmpLoop] using h
  | cons x t ih =>
    cases ys with
    | nil => simpa [tscmpLoop] using h
    | cons y u =>
      simp only [tscmpLoop]
      exact ih u _ (fun hz => h (or_eq_zero hz).1)

theorem tscmpLoop_eq (xs : List Nat) : ∀ (ys : List Nat) (r : Nat),
    xs.length = ys.length → (tscmpLoop r xs ys).1 = 0 → r = 0 ∧ xs = ys := by
  induction xs with
  | nil =>
    intro ys r hl h
    cases ys with
    | nil => exact ⟨by simpa [tscmpLoop] using h, rfl⟩
    | cons y u => simp at hl
  | cons x t ih =>
    intro ys r hl h
    cases ys with
    | nil => simp at hl
    | cons y u =>
      simp only [tscmpLoop] at h
      obtain ⟨h0, he⟩ := ih u _ (by simpa using hl) h
      obtain ⟨hr, hx⟩ := or_eq_zero h0
      exact ⟨hr, by rw [he, Nat.xor_eq_zero.mp hx]⟩

theorem tscmp_self (a : List Nat) : tscmp a a = true := by
  simp [tscmp, tscmpRun, tscmpLoop_self]

theorem tscmp_sound {a b : List Nat} (h : tscmp a b = true) : a = b := by
  by_cases hl : a.length = b.length
  · have h0 : (tscmpLoop 0 a b).1 = 0 := by
      simp only [tscmp, tscmpRun, if_pos hl, beq_iff_eq] at h
      exact h
    exact (tscmpLoop_eq a b 0 hl h0).2
  · exfalso
    simp only [tscmp, tscmpRun, if_neg hl, beq_iff_eq] at h
    exact tscmpLoop_ne b b 1 (by decide) h

theorem tscmpLoop_steps (xs : List Nat) : ∀ (ys : List Nat) (r : Nat),
    (tscmpLoop r xs ys).2 = min xs.length ys.length := by
  induction xs with
  | nil => intro ys r; cases ys <;> simp [tscmpLoop]
  | cons x t ih =>
    intro ys r
    cases ys with
    | nil => simp [tscmpLoop]
    | cons y u =>
      simp [tscmpLoop, ih]
      omega

theorem tscmpSteps_eq (a b : List Nat) : tscmpSteps a b = b.length := by
  by_cases hl : a.length = b.length
  · simp [tscmpSteps, tscmpRun, hl, tscmpLoop_steps]
  · simp [tscmpSteps, tscmpRun, hl, tscmpLoop_steps]

theorem hexDigitChar_mem (n : Nat) : hexDigitChar n ∈ hexAlphabet := by
  unfold hexDigitChar
  rw [List.getD_eq_getElem?_getD]
  cases h : hexAlphabet[n]? with
  | none => simpa using (by decide : '0' ∈ hexAlphabet)
  | some c => simpa using List.getElem?_mem h

theorem hexDigest_mem {bs : List Nat} {c : Char} (h : c ∈ (hexDigest bs).data) :
    c ∈ hexAlphabet := by
  simp only [hexDigest, List.mem_flatten, List.mem_map] at h
  obtain ⟨l, ⟨b, _, rfl⟩, hc⟩ := h
  simp only [List.mem_cons, List.not_mem_nil, or_false] at hc
  rcases hc with rfl | rfl <;> exact hexDigitChar_mem _

theorem hexDigest_length (bs : List Nat) : (hexDigest bs).data.length = 2 * bs.length := by
  induction bs with
  | nil => rfl
  | cons b t ih =>
    simp only [hexDigest, List.map_cons, List.flatten_cons] at ih ⊢
    simp only [List.length_append, List.length_cons, List.length_nil, ih]
    omega

theorem hexDigest_ascii (bs : List Nat) : allAscii (hexDigest bs) = true := by
  simp only [allAscii, List.all_eq_true, decide_eq_true_eq]
  intro c hc
  have hm := hexDigest_mem hc
  exact (by decide : ∀ x ∈ hexAlphabet, x.toNat < 128) c hm

theorem hexDigest_lowerHex (bs : List Nat) : isLowerHex (hexDigest bs) = true := by
  simp only [isLowerHex, List.all_eq_true, decide_eq_true_eq]
  exact fun c hc => hexDigest_mem hc

theorem char_toNat_inj {c d : Char} (h : c.toNat = d.toNat) : c = d := by
  have h2 := congrArg Char.ofNat h
  simpa [Char.ofNat_toNat] using h2

theorem strCodes_inj {s t : String} (h : strCodes s = strCodes t) : s = t := by
  have hd : s.data = t.data := by
    have hinj : Function.Injective Char.toNat := fun c d => char_toNat_inj
    exact List.map_injective_iff.mpr hinj h
  calc s = String.mk s.data := (strMk_data s).symm
    _ = String.mk t.data := by rw [hd]
    _ = t := strMk_data t

theorem sha256_length (m : List Nat) : (sha256 m).length = 32 := by
  simp [sha256, toBytes4]

theorem hmacSha256_length (k m : List Nat) : (hmacSha256 k m).length = 32 := by
  simp [hmacSha256, sha256_length]

theorem gen_data (body secret : String) :
    (generate_signature body secret).data =
      "sha256=".data ++ (hmacHex secret body).data := by
  simp [generate_signature, strData_append]

theorem gen_not_empty (body secret : String) :
    (generate_signature body secret).data.isEmpty = false := by
  rw [gen_data]; rfl

theorem gen_startsWith (body secret : String) :
    strStartsWith (generate_signature body secret) "sha256=" = true := by
  simp [strStartsWith, gen_data]

theorem gen_drop7 (body secret : String) :
    strDrop (generate_signature body secret) 7 = hmacHex secret body := by
  simp only [strDrop, gen_data]
  rw [show (7 : Nat) = "sha256=".data.length from rfl, List.drop_left]

theorem compare_digest_self_hex (bs : List Nat) :
    compare_digest (hexDigest bs) (hexDigest bs) = true := by
  simp [compare_digest, hexDigest_ascii, tscmp_self]

theorem validate_generate (body secret : String) :
    validate_signature body (generate_signature body secret) secret = true := by
  simp only [validate_signature, gen_not_empty, gen_startsWith, gen_drop7,
    Bool.not_true, Bool.or_self, Bool.false_or, if_false]
  simpa [hmacHex] using compare_digest_self_hex
    (hmacSha256 (utf8Encode secret) (utf8Encode body))

theorem validate_iff (body sig secret : String) :
    validate_signature body sig secret = true ↔ sig = generate_signature body secret := by
  constructor
  · intro h
    unfold validate_signature at h
    by_cases hc : (sig.data.isEmpty || !(strStartsWith sig "sha256=")) = true
    · rw [if_pos hc] at h; cases h
    · rw [if_neg hc] at h
      have hcf : (sig.data.isEmpty || !(strStartsWith sig "sha256=")) = false :=
        Bool.eq_false_iff.mpr hc
      have hsw : strStartsWith sig "sha256=" = true := by
        rcases Bool.or_eq_false_iff.mp hcf with ⟨_, h2⟩
        simpa using h2
      have hcmp : tscmp (strCodes (hmacHex secret body)) (strCodes (strDrop sig 7)) = true := by
        by_cases ha : (allAscii (hmacHex secret body) && allAscii (strDrop sig 7)) = true
        · simpa [compare_digest, ha] using h
        · simp [compare_digest, ha] at h
      have heq : strDrop sig 7 = hmacHex secret body :=
        (strCodes_inj (tscmp_sound hcmp)).symm
      obtain ⟨t, ht⟩ : "sha256=".data <+: sig.data := by
        simpa [strStartsWith] using hsw
      have hdrop : (strDrop sig 7).data = t := by
        simp only [strDrop, ← ht]
        rw [show (7 : Nat) = "sha256=".data.length from rfl, List.drop_left]
      have hsig : sig.data = (generate_signature body secret).data := by
        rw [gen_data, ← ht, ← hdrop, heq]
      calc sig = String.mk sig.data := (strMk_data sig).symm
        _ = String.mk (generate_signature body secret).data := by rw [hsig]
        _ = generate_signature body secret := strMk_data _
  · intro h
    rw [h]
    exact validate_generate body secret

/-! ## Claim theorems -/

/-- C2: for every secret string and body string, verify(secret, body,
sign(secret, body)) returns true, where sign computes HMAC-SHA256 over the
UTF-8 encoding of the body keyed by the UTF-8 encoding of the secret and
returns the lowercase hex digest (64 lowercase hex characters) behind the
literal tag sha256=. -/
theorem C2_verify_of_sign (secret body : String) :
    validate_signature body (generate_signature body secret) secret = true ∧
    generate_signature body secret =
      "sha256=" ++ hexDigest (hmacSha256 (utf8Encode secret) (utf8Encode body)) ∧
    strStartsWith (generate_signature body secret) "sha256=" = true ∧
    (strDrop (generate_signature body secret) 7).data.length = 64 ∧
    isLowerHex (strDrop (generate_signature body secret) 7) = true := by
  refine ⟨validate_generate body secret, rfl, gen_startsWith body secret, ?_, ?_⟩
  · rw [gen_drop7]
    show (hexDigest (hmacSha256 (utf8Encode secret) (utf8Encode body))).data.length = 64
    rw [hexDigest_length, hmacSha256_length]
  · rw [gen_drop7]
    simpa [hmacHex] using
      hexDigest_lowerHex (hmacSha256 (utf8Encode secret) (utf8Encode body))

/-- C3: verify never throws (the model is a total Boolean function; the
source wraps the comparison in try/except returning False), and returns
false whenever the header is empty, lacks the sha256= tag, or carries a
malformed digest suffix of wrong length or with a character outside the
lowercase hex alphabet. -/
theorem C3_verify_fails_closed (secret body sig : String)
    (h : sig = "" ∨ strStartsWith sig "sha256=" = false ∨
         (strDrop sig 7).data.length ≠ 64 ∨ isLowerHex (strDrop sig 7) = false) :
    validate_signature body sig secret = false := by
  cases hv : validate_signature body sig secret
  · rfl
  · exfalso
    have hs := (validate_iff body sig secret).mp hv
    subst hs
    rcases h with h | h | h | h
    · have h2 := congrArg String.data h
      rw [gen_data] at h2
      simp at h2
    · rw [gen_startsWith] at h
      cases h
    · rw [gen_drop7] at h
      apply h
      show (hexDigest (hmacSha256 (utf8Encode secret) (utf8Encode body))).data.length = 64
      rw [hexDigest_length, hmacSha256_length]
    · rw [gen_drop7] at h
      rw [show hmacHex secret body =
            hexDigest (hmacSha256 (utf8Encode secret) (utf8Encode body)) from rfl,
          hexDigest_lowerHex] at h
      cases h

/-- Witness for C3, at the empty signature header. -/
theorem C3_verify_fails_closed_witness :
    validate_signature "body" "" "k" = false :=
  C3_verify_fails_closed "k" "body" "" (Or.inl rfl)

/-- C4: verify compares the recomputed digest against the header digest
with a constant-time comparison. Timing is modelled by the iteration
count of the comparison loop behind compare_digest (the CPython tscmp
loop, which walks the full operand with no early exit): the count is
identical for any operands of the same lengths, whatever the position of
the first mismatching byte, and the comparison decides exactly
equality. -/
theorem C4_constant_time (a b c d : List Nat)
    (h1 : a.length = c.length) (h2 : b.length = d.length) :
    tscmpSteps a b = tscmpSteps c d ∧ tscmpSteps b a = tscmpSteps d c ∧
    (tscmp a b = true ↔ a = b) := by
  refine ⟨?_, ?_, fun h => tscmp_sound h, fun h => h ▸ tscmp_self a⟩
  · rw [tscmpSteps_eq, tscmpSteps_eq, h2]
  · rw [tscmpSteps_eq, tscmpSteps_eq, h1]

/-- Witness for C4: equal operands versus operands mismatching at the
first byte take the same number of comparison steps. -/
theorem C4_constant_time_witness :
    tscmpSteps [7, 7, 7] [7, 7, 7] = tscmpSteps [9, 7, 7] [7, 7, 7] ∧
    tscmpSteps [7, 7, 7] [7, 7, 7] = tscmpSteps [7, 7, 7] [9, 7, 7] ∧
    (tscmp [7, 7, 7] [7, 7, 7] = true ↔ [7, 7, 7] = [7, 7, 7]) :=
  C4_constant_time [7, 7, 7] [7, 7, 7] [9, 7, 7] [7, 7, 7] (by decide) (by decide)

/-- C8: for every limit input to the logs query, a numeric limit is
clamped into 1..100 (200 yields 100, 0 yields 1) and a non-numeric limit
such as abc falls back to the default 50 instead of erroring. -/
theorem C8_limit_clamp :
    logsLimitOf "200" = 100 ∧ logsLimitOf "0" = 1 ∧ logsLimitOf "abc" = 50 ∧
    (∀ s n, pyInt s = some n → logsLimitOf s = max 1 (min n 100)) ∧
    (∀ s, pyInt s = none → logsLimitOf s = 50) := by
  refine ⟨rfl, rfl, rfl, ?_, ?_⟩
  · intro s n h
    simp [logsLimitOf, logsLimit, List.find?, h]
  · intro s h
    simp [logsLimitOf, logsLimit, List.find?, h]

/-- Witness for C8 at an in-range numeric limit and a non-numeric one. -/
theorem C8_limit_clamp_witness :
    logsLimitOf "7" = max 1 (min 7 100) ∧ logsLimitOf "abc" = 50 :=
  ⟨C8_limit_clamp.2.2.2.1 "7" 7 rfl, C8_limit_clamp.2.2.1⟩

theorem countP_map_upd (st : List LogRow) (r : LogRow) :
    ((st.map (fun x => if x.log_id == r.log_id then r else x)).countP
      (fun x => x.log_id == r.log_id)) =
    st.countP (fun x => x.log_id == r.log_id) := by
  induction st with
  | nil => rfl
  | cons a t ih =>
    simp only [List.map_cons, List.countP_cons, ih]
    by_cases h : (a.log_id == r.log_id) = true
    · simp [h]
    · simp [h]

theorem countP_eq_zero_of_not_any (st : List LogRow) (k : String)
    (h : st.any (fun x => x.log_id == k) = false) :
    st.countP (fun x => x.log_id == k) = 0 := by
  simp only [List.any_eq_false] at h
  rw [List.countP_eq_zero]
  exact h

theorem countP_upsert (st : List LogRow) (r : LogRow)
    (h : st.countP (fun x => x.log_id == r.log_id) ≤ 1) :
    (upsertRow st r).countP (fun x => x.log_id == r.log_id) = 1 := by
  by_cases ha : st.any (fun x => x.log_id == r.log_id) = true
  · have h1 : 0 < st.countP (fun x => x.log_id == r.log_id) := by
      rw [List.countP_pos_iff]
      simpa [List.any_eq_true] using ha
    simp only [upsertRow, ha, if_true, countP_map_upd]
    omega
  · have ha2 : st.any (fun x => x.log_id == r.log_id) = false :=
      Bool.eq_false_iff.mpr ha
    simp only [upsertRow, ha2, Bool.false_eq_true, if_false, List.countP_append,
      countP_eq_zero_of_not_any st _ ha2]
    simp [List.countP_cons]

theorem nodup_countP_le_one (st : List LogRow) (k : String)
    (h : (st.map (fun r => r.log_id)).Nodup) :
    st.countP (fun x => x.log_id == k) ≤ 1 := by
  induction st with
  | nil => simp
  | cons a t ih =>
    simp only [List.map_cons, List.nodup_cons] at h
    obtain ⟨hna, hnd⟩ := h
    by_cases hk : (a.log_id == k) = true
    · have hk2 : a.log_id = k := by simpa using hk
      have h0 : t.countP (fun x => x.log_id == k) = 0 := by
        rw [List.countP_eq_zero]
        intro x hx hpx
        apply hna
        have hxk : x.log_id = k := by simpa using hpx
        exact List.mem_map.mpr ⟨x, hx, by rw [hxk, hk2]⟩
      simp [List.countP_cons, hk, h0]
    · simp only [List.countP_cons, hk, Bool.false_eq_true, if_false, Nat.add_zero]
      exact ih hnd

theorem mem_upsertRow (st : List LogRow) (r : LogRow) : r ∈ upsertRow st r := by
  by_cases ha : st.any (fun x => x.log_id == r.log_id) = true
  · simp only [upsertRow, ha, if_true]
    obtain ⟨x, hx, hpx⟩ := List.any_eq_true.mp ha
    refine List.mem_map.mpr ⟨x, hx, ?_⟩
    simp [hpx]
  · have ha2 : st.any (fun x => x.log_id == r.log_id) = false :=
      Bool.eq_false_iff.mpr ha
    simp [upsertRow, ha2]

/-- C9: persisting an envelope is idempotent with respect to the row set
keyed by log_id: writing two envelopes with the same log_id (as happens
under at-least-once redelivery) into a table with unique ids leaves
exactly one row for that id, and that row is the second write. -/
theorem C9_upsert_idempotent (accept : WebhookPayload → Bool)
    (now1 now2 ts1 ts2 : Int) (st : List LogRow) (w1 w2 : WebhookPayload)
    (hnd : (st.map (fun r => r.log_id)).Nodup)
    (hid : w1.log_id = w2.log_id)
    (hacc : ∀ w, accept w = true)
    (h1 : pyTimestampMicros (replaceZ w1.received_at) = some ts1)
    (h2 : pyTimestampMicros (replaceZ w2.received_at) = some ts2) :
    (insert_log accept now2 (insert_log accept now1 st w1).2 w2).2.countP
        (fun r => r.log_id == w2.log_id) = 1 ∧
    rowOf w2 ts2 now2 ∈ (insert_log accept now2 (insert_log accept now1 st w1).2 w2).2 := by
  have e1 : (insert_log accept now1 st w1).2 = upsertRow st (rowOf w1 ts1 now1) := by
    simp [insert_log, h1, hacc]
  rw [e1]
  have e2 : (insert_log accept now2 (upsertRow st (rowOf w1 ts1 now1)) w2).2 =
      upsertRow (upsertRow st (rowOf w1 ts1 now1)) (rowOf w2 ts2 now2) := by
    simp [insert_log, h2, hacc]
  rw [e2]
  have hkey : (rowOf w2 ts2 now2).log_id = (rowOf w1 ts1 now1).log_id := by
    simp [rowOf, hid]
  have hle : (upsertRow st (rowOf w1 ts1 now1)).countP
      (fun x => x.log_id == (rowOf w2 ts2 now2).log_id) ≤ 1 := by
    rw [hkey]
    have hc := countP_upsert st (rowOf w1 ts1 now1) (nodup_countP_le_one st _ hnd)
    omega
  exact ⟨countP_upsert _ _ hle, mem_upsertRow _ _⟩

/-- Witness for C9: two writes with the same log_id into the empty table
leave exactly one row for that id. -/
theorem C9_upsert_idempotent_witness :
    (insert_log (fun _ => true) 2
      (insert_log (fun _ => true) 1 []
        ⟨"a", "2024-01-01T00:00:00Z", none, [], none⟩).2
      ⟨"a", "2024-01-01T00:00:01Z", none, [], none⟩).2.countP
      (fun r => r.log_id == "a") = 1 :=
  (C9_upsert_idempotent (fun _ => true) 1 2 1704067200000000 1704067201000000
    [] ⟨"a", "2024-01-01T00:00:00Z", none, [], none⟩
    ⟨"a", "2024-01-01T00:00:01Z", none, [], none⟩
    (by simp) rfl (fun _ => rfl) rfl rfl).1

/-- C5: a request whose signature fails verification gets 401, zero queue
sends, and the body is never parsed (so a malformed body still yields
401, not 400). Stated for invocations where the secret was retrieved. -/
theorem C5_unauth_no_parse (secret : String) (headers : List (String × String))
    (body freshId ts : String) (enqueueOk : Bool)
    (h : validate_signature body (headerSigLookup headers) secret = false) :
    (handler secret headers body freshId ts enqueueOk).status = 401 ∧
    (handler secret headers body freshId ts enqueueOk).sends = 0 ∧
    (handler secret headers body freshId ts enqueueOk).parsed = false ∧
    (handler secret headers body freshId ts enqueueOk).enqueued = none := by
  simp [handler, h]

/-- Witness for C5: no signature header and a malformed body give 401
with no parse attempt and no send. -/
theorem C5_unauth_no_parse_witness :
    (handler "k" [] "\x7bnot json" "fid" "t" true).status = 401 ∧
    (handler "k" [] "\x7bnot json" "fid" "t" true).sends = 0 ∧
    (handler "k" [] "\x7bnot json" "fid" "t" true).parsed = false ∧
    (handler "k" [] "\x7bnot json" "fid" "t" true).enqueued = none :=
  C5_unauth_no_parse "k" [] "\x7bnot json" "fid" "t" true rfl

/-- C6 counterexample: a correctly signed body that is valid JSON but not
an object is verified and parses as JSON, yet the receiver performs zero
queue sends (it returns 500), refuting the send-iff-verified-and-parsed
claim as stated. -/
theorem C6_counterexample :
    validate_signature "[]" (generate_signature "[]" "k") "k" = true ∧
    parseJson "[]" = some (Json.arr []) ∧
    (handler "k" [("X-Webhook-Signature", generate_signature "[]" "k")]
      "[]" "fid" "t" true).sends = 0 ∧
    (handler "k" [("X-Webhook-Signature", generate_signature "[]" "k")]
      "[]" "fid" "t" true).status = 500 := by
  have hl : headerSigLookup [("X-Webhook-Signature", generate_signature "[]" "k")] =
      generate_signature "[]" "k" := rfl
  have hp : parseJson "[]" = some (Json.arr []) := rfl
  refine ⟨validate_generate "[]" "k", hp, ?_, ?_⟩ <;>
    simp [handler, hl, validate_generate, hp]

/-- C6 (amended): the receiver performs exactly one queue send if and
only if the signature verifies and the body parses as a JSON object; on a
successful send it returns 200 with the fresh log_id, on a failed send it
returns 500; in every other case it performs zero sends. -/
theorem C6_enqueue_iff (secret : String) (headers : List (String × String))
    (body freshId ts : String) (enqueueOk : Bool) :
    ((handler secret headers body freshId ts enqueueOk).sends =
      if validate_signature body (headerSigLookup headers) secret && parsesAsObj body
      then 1 else 0) ∧
    (validate_signature body (headerSigLookup headers) secret = true →
      parsesAsObj body = true →
      (enqueueOk = true →
        (handler secret headers body freshId ts enqueueOk).status = 200 ∧
        (handler secret headers body freshId ts enqueueOk).logId = some freshId) ∧
      (enqueueOk = false →
        (handler secret headers body freshId ts enqueueOk).status = 500 ∧
        (handler secret headers body freshId ts enqueueOk).error =
          some "Failed to enqueue message")) := by
  cases hv : validate_signature body (headerSigLookup headers) secret
  · constructor
    · simp [handler, hv]
    · intro hvt
      cases hvt
  · cases hp : parseJson body with
    | none =>
      constructor
      · simp [handler, hv, parsesAsObj, hp]
      · intro _ hpo
        rw [parsesAsObj, hp] at hpo
        cases hpo
    | some j =>
      cases j with
      | obj fs =>
        constructor
        · cases enqueueOk <;> simp [handler, hv, parsesAsObj, hp]
        · intro _ _
          constructor <;> intro he <;> simp [handler, hv, hp, he]
      | null =>
        exact ⟨by simp [handler, hv, parsesAsObj, hp],
          fun _ hpo => by rw [parsesAsObj, hp] at hpo; cases hpo⟩
      | bool b =>
        exact ⟨by simp [handler, hv, parsesAsObj, hp],
          fun _ hpo => by rw [parsesAsObj, hp] at hpo; cases hpo⟩
      | num m e =>
        exact ⟨by simp [handler, hv, parsesAsObj, hp],
          fun _ hpo => by rw [parsesAsObj, hp] at hpo; cases hpo⟩
      | str s =>
        exact ⟨by simp [handler, hv, parsesAsObj, hp],
          fun _ hpo => by rw [parsesAsObj, hp] at hpo; cases hpo⟩
      | arr xs =>
        exact ⟨by simp [handler, hv, parsesAsObj, hp],
          fun _ hpo => by rw [parsesAsObj, hp] at hpo; cases hpo⟩

/-- Witness for C6 (amended): a correctly signed JSON object body with a
successful enqueue gets exactly one send, 200 and the fresh log_id. -/
theorem C6_enqueue_iff_witness :
    (handler "k"
      [("X-Webhook-Signature",
        generate_signature "\x7b\"event_type\":\"test\"\x7d" "k")]
      "\x7b\"event_type\":\"test\"\x7d" "fid" "t" true).sends = 1 ∧
    (handler "k"
      [("X-Webhook-Signature",
        generate_signature "\x7b\"event_type\":\"test\"\x7d" "k")]
      "\x7b\"event_type\":\"test\"\x7d" "fid" "t" true).status = 200 ∧
    (handler "k"
      [("X-Webhook-Signature",
        generate_signature "\x7b\"event_type\":\"test\"\x7d" "k")]
      "\x7b\"event_type\":\"test\"\x7d" "fid" "t" true).logId = some "fid" := by
  have hv : validate_signature "\x7b\"event_type\":\"test\"\x7d"
      (headerSigLookup [("X-Webhook-Signature",
        generate_signature "\x7b\"event_type\":\"test\"\x7d" "k")]) "k" = true :=
    validate_generate "\x7b\"event_type\":\"test\"\x7d" "k"
  have h := C6_enqueue_iff "k"
    [("X-Webhook-Signature", generate_signature "\x7b\"event_type\":\"test\"\x7d" "k")]
    "\x7b\"event_type\":\"test\"\x7d" "fid" "t" true
  have hsends := h.1
  rw [hv, (rfl : parsesAsObj "\x7b\"event_type\":\"test\"\x7d" = true)] at hsends
  have hok := (h.2 hv rfl).1 rfl
  exact ⟨by simpa using hsends, hok.1, hok.2⟩

/-- C10: a request whose signature verifies and whose body is valid JSON
but not an object gets 500 Internal server error (not 400) and zero queue
sends, because event_type extraction assumes an object and the resulting
AttributeError reaches only the outermost handler. -/
theorem C10_non_object_500 (secret : String) (headers : List (String × String))
    (body freshId ts : String) (enqueueOk : Bool) (j : Json)
    (hv : validate_signature body (headerSigLookup headers) secret = true)
    (hp : parseJson body = some j)
    (hobj : isObjJson j = false) :
    (handler secret headers body freshId ts enqueueOk).status = 500 ∧
    (handler secret headers body freshId ts enqueueOk).error =
      some "Internal server error" ∧
    (handler secret headers body freshId ts enqueueOk).sends = 0 := by
  cases j with
  | obj fs => rw [isObjJson] at hobj; cases hobj
  | null => simp [handler, hv, hp]
  | bool b => simp [handler, hv, hp]
  | num m e => simp [handler, hv, hp]
  | str s => simp [handler, hv, hp]
  | arr xs => simp [handler, hv, hp]

/-- Witness for C10: a correctly signed JSON array body gets 500 and no
send. -/
theorem C10_non_object_500_witness :
    (handler "k" [("X-Webhook-Signature", generate_signature "[]" "k")]
      "[]" "fid" "t" true).status = 500 ∧
    (handler "k" [("X-Webhook-Signature", generate_signature "[]" "k")]
      "[]" "fid" "t" true).error = some "Internal server error" ∧
    (handler "k" [("X-Webhook-Signature", generate_signature "[]" "k")]
      "[]" "fid" "t" true).sends = 0 :=
  C10_non_object_500 "k" [("X-Webhook-Signature", generate_signature "[]" "k")]
    "[]" "fid" "t" true (Json.arr [])
    (validate_generate "[]" "k") rfl rfl

theorem length_filter_add {α : Type} (p : α → Bool) (l : List α) :
    (l.filter p).length + (l.filter (fun a => !p a)).length = l.length := by
  induction l with
  | nil => rfl
  | cons a t ih =>
    cases h : p a <;> simp [List.filter_cons, h] <;> omega

theorem wf_parse_isSome {b : String} (h : wellFormedMsg b = true) :
    (parseJson b).isNone = false := by
  simp only [wellFormedMsg] at h
  cases hp : parseJson b
  · rw [hp] at h
    simp at h
  · simp [hp]

theorem psm_malformed (accept : WebhookPayload → Bool) (now : Int)
    (st : List LogRow) (b : String) (h : parseJson b = none) :
    process_single_message accept now st b = (false, st) := by
  simp [process_single_message, h]

theorem psm_wellFormed (accept : WebhookPayload → Bool) (now : Int)
    (st : List LogRow) (b : String) (hacc : ∀ w, accept w = true)
    (h : wellFormedMsg b = true) :
    ∃ r, rowOfMsg b now = some r ∧
      process_single_message accept now st b = (true, upsertRow st r) := by
  simp only [wellFormedMsg] at h
  cases hp : parseJson b with
  | none => rw [hp] at h; simp at h
  | some j =>
    rw [hp] at h
    cases j with
    | obj fs =>
      cases hm : mkWebhookPayload fs with
      | none => simp only [hm] at h; simp at h
      | some w =>
        simp only [hm] at h
        cases ht : pyTimestampMicros (replaceZ w.received_at) with
        | none => rw [ht] at h; simp at h
        | some ts =>
          refine ⟨rowOf w ts now, ?_, ?_⟩
          · simp [rowOfMsg, hp, hm, ht]
          · simp [process_single_message, hp, hm, insert_log, ht, hacc w]
    | null => simp at h
    | bool v => simp at h
    | num m e => simp at h
    | str s => simp at h
    | arr xs => simp at h

theorem processItem_mkMsg (accept : WebhookPayload → Bool) (now : Int)
    (st : List LogRow) (mid b : String) :
    processItem accept now st (mkMsgJson mid b) =
      process_single_message accept now st b := rfl

theorem processMessages_mkBatch (accept : WebhookPayload → Bool) (now : Int)
    (hacc : ∀ w, accept w = true) :
    ∀ (bodies : List String) (s e : Nat) (st : List LogRow),
    (∀ b ∈ bodies, parseJson b = none ∨ wellFormedMsg b = true) →
    processMessages accept now (bodies.map (fun b => mkMsgJson "mid" b)) s e st =
      (s + (bodies.filter (fun b => wellFormedMsg b)).length,
       e + (bodies.filter (fun b => !wellFormedMsg b)).length,
       bodies.foldl (fun acc b =>
         match rowOfMsg b now with
         | some r => upsertRow acc r
         | none => acc) st) := by
  intro bodies
  induction bodies with
  | nil => intro s e st _; simp [processMessages]
  | cons b rest ih =>
    intro s e st hpart
    have hb := hpart b (List.mem_cons_self b rest)
    have htail : ∀ x ∈ rest, parseJson x = none ∨ wellFormedMsg x = true :=
      fun x hx => hpart x (List.mem_cons_of_mem b hx)
    simp only [List.map_cons, processMessages, processItem_mkMsg]
    rcases hb with hb | hb
    · have hwf : wellFormedMsg b = false := by simp [wellFormedMsg, hb]
      have hrow : rowOfMsg b now = none := by simp [rowOfMsg, hb]
      rw [psm_malformed accept now st b hb]
      simp only [Bool.false_eq_true, if_false]
      rw [ih s (e + 1) st htail]
      simp only [List.filter_cons, hwf, Bool.not_false, if_true,
        Bool.false_eq_true, if_false, List.length_cons, List.foldl_cons, hrow]
      have harith : e + 1 + (rest.filter (fun x => !wellFormedMsg x)).length =
          e + ((rest.filter (fun x => !wellFormedMsg x)).length + 1) := by omega
      rw [harith]
    · obtain ⟨r, hrow, hpsm⟩ := psm_wellFormed accept now st b hacc hb
      rw [hpsm]
      simp only [if_true]
      rw [ih (s + 1) e (upsertRow st r) htail]
      simp only [List.filter_cons, hb, Bool.not_true, if_true,
        Bool.false_eq_true, if_false, List.length_cons, List.foldl_cons, hrow]
      have harith : s + 1 + (rest.filter (fun x => wellFormedMsg x)).length =
          s + ((rest.filter (fun x => wellFormedMsg x)).length + 1) := by omega
      rw [harith]

/-- C1: for a batch of N message bodies of which exactly K are malformed
JSON and the rest are well formed, with a store accepting every insert,
the trigger acknowledges with processed = N-K and errors = K, each well
formed body is persisted independently (the final table is the fold of
the per-message upserts, in delivery order, whatever the positions of the
malformed ones), and the empty batch returns processed = 0, errors = 0
with the table untouched for any store whatsoever. -/
theorem C1_batch_counts (accept : WebhookPayload → Bool) (now : Int)
    (st : List LogRow) (bodies : List String)
    (hacc : ∀ w, accept w = true)
    (hpart : ∀ b ∈ bodies, parseJson b = none ∨ wellFormedMsg b = true) :
    processTriggerJson accept now st (mkBatchEnvelope bodies) =
      Except.ok
        (⟨"success",
          bodies.length - (bodies.filter (fun b => (parseJson b).isNone)).length,
          (bodies.filter (fun b => (parseJson b).isNone)).length⟩,
         bodies.foldl (fun acc b =>
           match rowOfMsg b now with
           | some r => upsertRow acc r
           | none => acc) st) ∧
    (∀ (accept2 : WebhookPayload → Bool) (now2 : Int) (st2 : List LogRow),
      processTriggerJson accept2 now2 st2 (mkBatchEnvelope []) =
        Except.ok (⟨"success", 0, 0⟩, st2)) := by
  constructor
  · have hfeq : bodies.filter (fun b => (parseJson b).isNone) =
        bodies.filter (fun b => !wellFormedMsg b) := by
      apply List.filter_congr
      intro b hb
      rcases hpart b hb with h | h
      · simp [h, wellFormedMsg]
      · rw [wf_parse_isSome h, h]
        rfl
    have hsum := length_filter_add (fun b => wellFormedMsg b) bodies
    cases bodies with
    | nil => rfl
    | cons b rest =>
      have hext : processTriggerJson accept now st (mkBatchEnvelope (b :: rest)) =
          (fun r => (Except.ok (⟨"success", r.1, r.2.1⟩, r.2.2) :
              Except Unit (ProcessingResult × List LogRow)))
            (processMessages accept now
              ((b :: rest).map (fun x => mkMsgJson "mid" x)) 0 0 st) := rfl
      rw [hext, processMessages_mkBatch accept now hacc (b :: rest) 0 0 st hpart]
      rw [hfeq]
      have h1 : (0 : Nat) + ((b :: rest).filter (fun x => wellFormedMsg x)).length =
          (b :: rest).length -
            ((b :: rest).filter (fun x => !wellFormedMsg x)).length := by omega
      have h2 : (0 : Nat) + ((b :: rest).filter (fun x => !wellFormedMsg x)).length =
          ((b :: rest).filter (fun x => !wellFormedMsg x)).length := by omega
      rw [h1, h2]
  · intro accept2 now2 st2
    rfl

/-- Witness for C1: a two-message batch with one well formed and one
malformed body acknowledges with processed = 1, errors = 1 and persists
exactly the well formed message. -/
theorem C1_batch_counts_witness :
    processTriggerJson (fun _ => true) 0 []
      (mkBatchEnvelope
        ["\x7b\"log_id\":\"a1\",\"received_at\":\"2024-01-01T00:00:00Z\"\x7d",
         "oops"]) =
      Except.ok (⟨"success", 1, 1⟩,
        [⟨"a1", 1704067200000000, "unknown", [], "", 0⟩]) := by
  have h := (C1_batch_counts (fun _ => true) 0 []
    ["\x7b\"log_id\":\"a1\",\"received_at\":\"2024-01-01T00:00:00Z\"\x7d", "oops"]
    (fun _ => rfl)
    (by
      intro b hb
      simp only [List.mem_cons, List.not_mem_nil, or_false] at hb
      rcases hb with rfl | rfl
      · exact Or.inr rfl
      · exact Or.inl rfl)).1
  exact h.trans rfl

theorem processMessages_sum (accept : WebhookPayload → Bool) (now : Int) :
    ∀ (items : List Json) (s e : Nat) (st : List LogRow),
    (processMessages accept now items s e st).1 +
      (processMessages accept now items s e st).2.1 = s + e + items.length := by
  intro items
  induction items with
  | nil => intro s e st; simp [processMessages]
  | cons m rest ih =>
    intro s e st
    simp only [processMessages]
    cases h : (processItem accept now st m).1 <;>
      simp only [h, Bool.false_eq_true, if_false, if_true, ih, List.length_cons] <;>
      omega

theorem jsonIter_of_len (m : Json) (n : Nat) (h : jsonLen m = some n) :
    ∃ items, jsonIter m = some items := by
  cases m with
  | arr xs => exact ⟨xs, rfl⟩
  | obj fs => exact ⟨(dedupKeys fs).map Json.str, rfl⟩
  | str s => exact ⟨s.data.map (fun c => Json.str ⟨[c]⟩), rfl⟩
  | null => simp [jsonLen] at h
  | bool v => simp [jsonLen] at h
  | num mm e => simp [jsonLen] at h

/-- C7: the batch endpoint acknowledges (returns ok) with status success
and processed + errors equal to the number of loop iterations, whatever
the individual messages contain - per-message failures are swallowed into
the error counter - and it raises (refusing the acknowledgment, forcing
whole-batch redelivery) exactly when the batch-level envelope extraction
itself fails: unparseable request document, a non-object document, or a
messages value without a len, on which the logging call preceding the
falsy check raises TypeError. -/
theorem C7_batch_ack (accept : WebhookPayload → Bool) (now : Int)
    (st : List LogRow) (bodyStr : String) :
    (process_ymq_trigger accept now st bodyStr = Except.error () ↔
      envelopeBad bodyStr = true) ∧
    (∀ r st2, process_ymq_trigger accept now st bodyStr = Except.ok (r, st2) →
      r.status = "success" ∧ r.processed + r.errors = numMessages bodyStr) := by
  cases hp : parseJson bodyStr with
  | none =>
    constructor
    · simp [process_ymq_trigger, envelopeBad, hp]
    · intro r st2 h
      simp [process_ymq_trigger, hp] at h
  | some j =>
    cases j with
    | obj bfs =>
      cases hl : jsonLen (objGetD bfs "messages" (Json.arr [])) with
      | none =>
        constructor
        · simp [process_ymq_trigger, processTriggerJson, envelopeBad, hp, hl]
        · intro r st2 h
          simp [process_ymq_trigger, processTriggerJson, hp, hl] at h
      | some n =>
        obtain ⟨items0, hi⟩ := jsonIter_of_len _ n hl
        by_cases ht : jsonTruthy (objGetD bfs "messages" (Json.arr [])) = true
        · have he : process_ymq_trigger accept now st bodyStr =
              Except.ok (⟨"success",
                (processMessages accept now items0 0 0 st).1,
                (processMessages accept now items0 0 0 st).2.1⟩,
                (processMessages accept now items0 0 0 st).2.2) := by
            simp [process_ymq_trigger, processTriggerJson, hp, hl, ht, hi]
          constructor
          · rw [he]
            simp [envelopeBad, hp, hl]
          · intro r st2 h
            rw [he, Except.ok.injEq, Prod.mk.injEq] at h
            obtain ⟨h4, h5⟩ := h
            subst h4
            refine ⟨rfl, ?_⟩
            have hsum := processMessages_sum accept now items0 0 0 st
            have hnm : numMessages bodyStr = items0.length := by
              simp [numMessages, hp, ht, hi]
            rw [hnm]
            simpa using hsum
        · have ht2 : jsonTruthy (objGetD bfs "messages" (Json.arr [])) = false :=
            Bool.eq_false_iff.mpr ht
          have he : process_ymq_trigger accept now st bodyStr =
              Except.ok (⟨"success", 0, 0⟩, st) := by
            simp [process_ymq_trigger, processTriggerJson, hp, hl, ht2]
          constructor
          · rw [he]
            simp [envelopeBad, hp, hl]
          · intro r st2 h
            rw [he, Except.ok.injEq, Prod.mk.injEq] at h
            obtain ⟨h4, h5⟩ := h
            subst h4
            exact ⟨rfl, by simp [numMessages, hp, ht2]⟩
    | null =>
      exact ⟨by simp [process_ymq_trigger, processTriggerJson, envelopeBad, hp],
        fun r st2 h => by
          simp [process_ymq_trigger, processTriggerJson, hp] at h⟩
    | bool v =>
      exact ⟨by simp [process_ymq_trigger, processTriggerJson, envelopeBad, hp],
        fun r st2 h => by
          simp [process_ymq_trigger, processTriggerJson, hp] at h⟩
    | num m e =>
      exact ⟨by simp [process_ymq_trigger, processTriggerJson, envelopeBad, hp],
        fun r st2 h => by
          simp [process_ymq_trigger, processTriggerJson, hp] at h⟩
    | str s =>
      exact ⟨by simp [process_ymq_trigger, processTriggerJson, envelopeBad, hp],
        fun r st2 h => by
          simp [process_ymq_trigger, processTriggerJson, hp] at h⟩
    | arr xs =>
      exact ⟨by simp [process_ymq_trigger, processTriggerJson, envelopeBad, hp],
        fun r st2 h => by
          simp [process_ymq_trigger, processTriggerJson, hp] at h⟩

/-- Witness for C7: a request document that is a JSON array makes the
batch-level extraction fail and the endpoint raise. -/
theorem C7_batch_ack_witness :
    envelopeBad "[1]" = true ∧
    process_ymq_trigger (fun _ => true) 0 [] "[1]" = Except.error () :=
  ⟨rfl, (C7_batch_ack (fun _ => true) 0 [] "[1]").1.mpr rfl⟩

end Webhook

